import Mathlib

/-
Verification of the SciCoDa reference-data library against its specification.

The development shallowly embeds the relevant parts of the package:
tables are lists of rows, a row being an association list from column
names to string cell values.  The CCD curator pipeline of
scicoda.create.pdb, the periodic-table normalizer of scicoda.create.atom,
the cached loader of scicoda.data, the public accessor of scicoda.pdb and
the persistence driver of scicoda.update.pdb are each translated from the
source; the two dataframe helpers deduplicate_by_cols and merge_rows live
in the external dfhelp module whose code is not in the repository, so they
are modelled from the specification text (steps 7 and 8 of the curator
algorithm).
-/

/-- A table row: an association list from column names to cell values. -/
abbrev Row := List (String × String)

/-- Value of column c in a row, None when the column is absent. -/
def colVal (c : String) : Row → Option String
  | [] => none
  | (c2, v) :: rest => if c = c2 then some v else colVal c rest

/-- The list of column names of a row. -/
def rowCols (r : Row) : List String := r.map Prod.fst

/-- Identity-key of a row: its values at the identity columns, in order. -/
def rowKey (idCols : List String) (r : Row) : List (Option String) :=
  idCols.map (fun c => colVal c r)

/-- Lexicographic comparison of char lists by code point, as Python and
polars compare strings. -/
def charListLt : List Char → List Char → Bool
  | [], [] => false
  | [], _ :: _ => true
  | _ :: _, [] => false
  | a :: as, b :: bs =>
    if a.toNat < b.toNat then true
    else if b.toNat < a.toNat then false
    else charListLt as bs

/-- String strict order by code points (the order polars uses for
min_horizontal and max_horizontal on string columns). -/
def strLt (a b : String) : Bool := charListLt a.data b.data

/-- String non-strict order by code points. -/
def strLe (a b : String) : Bool := strLt a b || a == b

/-- Whether the string s ends with the given suffix, as Python str.endswith. -/
def strEndsWith (s suffix : String) : Bool :=
  s.data.reverse.take suffix.data.length = suffix.data.reverse

/-- Modelled from the spec: dfhelp.deduplicate_by_cols worker.  Step 7 of
the curator algorithm removes rows sharing an identity key, keeping the
first occurrence; seen accumulates the keys already kept.  The removed
rows are only diagnostics and are not modelled. -/
def dedupGo (idCols : List String) : List Row → List (List (Option String)) → List Row
  | [], _ => []
  | r :: rs, seen =>
    if rowKey idCols r ∈ seen then dedupGo idCols rs seen
    else r :: dedupGo idCols rs (rowKey idCols r :: seen)

/-- Modelled from the spec: dfhelp.deduplicate_by_cols, kept rows only
(step 7: remove rows sharing an identity key, keeping the first
occurrence). -/
def deduplicateByCols (idCols : List String) (rows : List Row) : List Row :=
  dedupGo idCols rows []

/-- Modelled from the spec: dfhelp.merge_rows, merged rows only (step 8:
merge row-wise on the identity key; where both variants contain a row for
the same key, keep the main variant's row; the conflict list is only a
diagnostic and is not modelled). -/
def mergeRows (main prot : List Row) (idCols : List String) : List Row :=
  main ++ prot.filter fun r => decide (rowKey idCols r ∉ main.map (rowKey idCols))

/-- The merged table the curator produces for one category present in both
dictionary variants: each variant is deduplicated independently and the
results are merged on the identity key (create/pdb.py lines 110-126). -/
def curatorMergedTable (idCols : List String) (main prot : List Row) : List Row :=
  mergeRows (deduplicateByCols idCols main) (deduplicateByCols idCols prot) idCols

/-- Starting atomic number minus one of the period containing z, from the
period_start expression of create/atom.py lines 226-234. -/
def periodStartM1 (z : Nat) : Nat :=
  if z ≤ 2 then 0
  else if z ≤ 10 then 2
  else if z ≤ 18 then 10
  else if z ≤ 36 then 18
  else if z ≤ 54 then 36
  else if z ≤ 86 then 54
  else 86

/-- Position of element z within its period (create/atom.py line 235). -/
def positionInPeriod (z : Nat) : Nat := z - periodStartM1 z

/-- IUPAC group derivation, translating the expr_group chain of
create/atom.py lines 237-253 branch by branch in source order; none is the
null group. -/
def groupOf (z : Nat) : Option Nat :=
  if z = 2 then some 18
  else if 58 ≤ z ∧ z ≤ 71 then none
  else if 90 ≤ z ∧ z ≤ 103 then none
  else if positionInPeriod z = 1 then some 1
  else if positionInPeriod z = 2 then some 2
  else if z ≤ 10 ∧ 3 ≤ positionInPeriod z then some (positionInPeriod z + 10)
  else if z ≤ 18 ∧ 3 ≤ positionInPeriod z then some (positionInPeriod z + 10)
  else if 72 ≤ z ∧ z ≤ 86 then some (positionInPeriod z - 14)
  else if 104 ≤ z then some (positionInPeriod z - 14)
  else some (positionInPeriod z)

/-- The group assignment exactly as the claim states it: null if and only
if z lies in 58-71 or 90-103; 18 for helium; 3 for La and Ac; position in
period minus 14 for periods 6-7 past the f-block; otherwise the position
in period, shifted up by 10 onto groups 13-18 for periods 2-3 positions of
at least 3. -/
def groupClaimC3 (z : Nat) : Option Nat :=
  if (58 ≤ z ∧ z ≤ 71) ∨ (90 ≤ z ∧ z ≤ 103) then none
  else if z = 2 then some 18
  else if z = 57 ∨ z = 89 then some 3
  else if (72 ≤ z ∧ z ≤ 86) ∨ 104 ≤ z then some (positionInPeriod z - 14)
  else if z ≤ 18 ∧ 3 ≤ positionInPeriod z then some (positionInPeriod z + 10)
  else some (positionInPeriod z)

/-- Module-level names bound in scicoda/data.py: the module defines
_data_dir, _cache, get_file and get_filepath and nothing else. -/
def scicodaDataModuleNames : List String :=
  ["_data_dir", "_cache", "get_file", "get_filepath"]

/-- Python from-import: importing a name from a module succeeds exactly
when the module binds that name, otherwise ImportError carries the name. -/
def pythonImportFrom (moduleNames : List String) (name : String) : Except String Unit :=
  if name ∈ moduleNames then .ok () else .error name

/-- Column names of the frame read in create/atom.py lines 101-122: the
keys of the read_csv schema.  The whitespace-stripping with_columns at
lines 128-132 rewrites existing string columns and adds none, so these are
still the frame's columns when line 262 runs. -/
def pubchemCsvColumns : List String :=
  ["AtomicNumber", "Symbol", "Name", "AtomicMass", "CPKHexColor",
   "ElectronConfiguration", "Electronegativity", "AtomicRadius",
   "IonizationEnergy", "ElectronAffinity", "OxidationStates",
   "StandardState", "MeltingPoint", "BoilingPoint", "Density",
   "GroupBlock", "YearDiscovered"]

/-- Column resolution of polars DataFrame.sort: the by column must be a
column of the frame, otherwise ColumnNotFoundError carries the name. -/
def polarsSortColumnCheck (cols : List String) (c : String) : Except String (List String) :=
  if c ∈ cols then .ok cols else .error c

/-- Suffix marking estimated-standard-deviation columns
(create/pdb.py line 52). -/
def esdColsSuffix : String := "_esd_digits"

/-- Drop the cells of a row whose column name carries the ESD suffix
(create/pdb.py lines 82-83). -/
def stripEsdRow (r : Row) : Row :=
  r.filter fun p => !(strEndsWith p.1 esdColsSuffix)

/-- polars min_horizontal over two optional string cells: the smaller
non-null value. -/
def minHorizontal (a b : Option String) : Option String :=
  match a, b with
  | some x, some y => some (if strLt x y then x else y)
  | some x, none => some x
  | none, some y => some y
  | none, none => none

/-- polars max_horizontal over two optional string cells: the larger
non-null value. -/
def maxHorizontal (a b : Option String) : Option String :=
  match a, b with
  | some x, some y => some (if strLt x y then y else x)
  | some x, none => some x
  | none, some y => some y
  | none, none => none

/-- Bond atom-order normalization of one chem_comp_bond row
(create/pdb.py lines 89-92): atom_id_1 becomes the horizontal minimum and
atom_id_2 the horizontal maximum of the two atom ids. -/
def normalizeBondRow (r : Row) : Row :=
  let a1 := colVal "atom_id_1" r
  let a2 := colVal "atom_id_2" r
  r.map fun p =>
    if p.1 = "atom_id_1" then (p.1, (minHorizontal a1 a2).getD p.2)
    else if p.1 = "atom_id_2" then (p.1, (maxHorizontal a1 a2).getD p.2)
    else p

/-- The per-variant table appended to category_dfs, translating
create/pdb.py lines 79-94.  The local cat_df receives the ESD-column strip
and, for chem_comp_bond, the bond normalization, but line 94 appends
cat.df, the unmodified input, so those transformations are discarded. -/
def appendedVariantDf (catName : String) (df : List Row) : List Row :=
  let cat_df := df.map stripEsdRow
  let cat_df := if catName = "chem_comp_bond" then cat_df.map normalizeBondRow else cat_df
  df

/-- The _CCD_CATEGORY_CHECK identity-column table of create/pdb.py
lines 142-161. -/
def ccdIdColsTable (catName : String) : Option (List String) :=
  if catName = "chem_comp" then some ["id"]
  else if catName = "chem_comp_atom" then some ["comp_id", "atom_id"]
  else if catName = "chem_comp_bond" then some ["comp_id", "atom_id_1", "atom_id_2"]
  else if catName = "pdbx_chem_comp_atom_related" then
    some ["comp_id", "atom_id", "related_comp_id", "related_atom_id"]
  else if catName = "pdbx_chem_comp_pcm" then some ["comp_id", "pcm_id"]
  else if catName = "pdbx_chem_comp_synonyms" then some ["comp_id", "ordinal"]
  else none

/-- The column list of a table, read off its first row (all rows of a
polars frame share one schema). -/
def tableCols (df : List Row) : List String := rowCols (df.headD [])

/-- Columns common to every given table.  Python computes this with set
intersection, whose iteration order is unspecified; key comparison does
not depend on the order, and no claim exercises this fallback. -/
def interAll : List (List String) → List String
  | [] => []
  | c :: cs => cs.foldl (fun acc d => acc.filter fun x => decide (x ∈ d)) c

/-- Identity-column resolution of create/pdb.py lines 102-108: the fixed
table when the category is known, otherwise all columns of the single
variant, or the columns shared across variants. -/
def idColsFor (catName : String) (variantDfs : List (List Row)) : List String :=
  match ccdIdColsTable catName with
  | some cs => cs
  | none =>
    match variantDfs with
    | [df] => tableCols df
    | dfs => interAll (dfs.map tableCols)

/-- Deduplicate each variant and merge, translating create/pdb.py
lines 110-126: a category present in a single variant is its deduplicated
table verbatim, otherwise the two deduplicated tables are merged on the
identity key.  The source loop yields at most two variants. -/
def ccdMergedForCategory (catName : String) (variantDfs : List (List Row)) : List Row :=
  let idCols := idColsFor catName variantDfs
  match variantDfs.map (deduplicateByCols idCols) with
  | [d] => d
  | [d1, d2] => mergeRows d1 d2 (idColsFor catName variantDfs)
  | _ => []

/-- One category of the curator output, translating create/pdb.py
lines 60-96 (per-variant processing and append) composed with
lines 100-137 (dedup, merge and amino-acid partition).  A null identity
value is dropped from both partitions, as polars is_in and its negation
are null on null input. -/
def ccdCategoryPartitions (catName : String) (rawVariantDfs : List (List Row))
    (aminoAcidCompIds : List String) : List Row × List Row :=
  let variantDfs := rawVariantDfs.map (appendedVariantDf catName)
  let merged := ccdMergedForCategory catName variantDfs
  let idCol := if catName = "chem_comp" then "id" else "comp_id"
  let isAa : Row → Option Bool := fun r =>
    (colVal idCol r).map fun v => decide (v ∈ aminoAcidCompIds)
  (merged.filter fun r => (isAa r).getD false,
   merged.filter fun r => ((isAa r).map not).getD false)

/-- The eleven valid CCD category names of pdb.py lines 11-23. -/
def ccdCategoryNames : List String :=
  ["chem_comp", "chem_comp_atom", "chem_comp_bond",
   "pdbx_chem_comp_atom_related", "pdbx_chem_comp_audit",
   "pdbx_chem_comp_descriptor", "pdbx_chem_comp_feature",
   "pdbx_chem_comp_identifier", "pdbx_chem_comp_pcm",
   "pdbx_chem_comp_related", "pdbx_chem_comp_synonyms"]

/-- Parameter names of data.get_file, from its signature at data.py
lines 47-53: category, name, extension and the keyword-only lazy and
cache.  There is no filterby parameter. -/
def getFileParamNames : List String :=
  ["category", "name", "extension", "lazy", "cache"]

/-- Keyword names passed to data.get_file by the comp_id branch of
pdb.ccd at pdb.py lines 283-288. -/
def ccdCompIdGetFileKwargs : List String :=
  ["category", "name", "extension", "filterby"]

/-- Python keyword-argument binding: the call raises TypeError naming the
first keyword that is not a parameter of the callee. -/
def pythonKeywordCall (paramNames kwargNames : List String) : Except String Unit :=
  match kwargNames.find? (fun k => !(paramNames.contains k)) with
  | some k => .error k
  | none => .ok ()

/-- Outcome of a pdb.ccd call. -/
inductive PdbCcdResult where
  | table (rows : List Row)
  | inputError (parameter : String)
  | fileNotFound (name : String)
  | updateTriggered
  | typeErrorKwarg (kwarg : String)
  deriving DecidableEq

/-- The public accessor pdb.ccd, translating pdb.py lines 234-293 over a
store mapping dataset names in the pdb file category to persisted tables.
A missing ccd-chem_comp-aa file triggers the one-time update pipeline
(network download, lines 245-262), not modelled further.  In the comp_id
branch the very first loop iteration calls data.get_file with a filterby
keyword, so its outcome is whatever Python keyword binding yields for that
call. -/
def pdbCcdAccessor (store : String → Option (List Row))
    (compId : Option (List String)) (category variant : String) : PdbCcdResult :=
  if category ∉ ccdCategoryNames then .inputError "category"
  else if (store "ccd-chem_comp-aa").isNone then .updateTriggered
  else
    let variants := if variant = "any" then ["aa", "non_aa"] else [variant]
    match compId with
    | none =>
      let dfs := variants.map fun var => store ("ccd-" ++ category ++ "-" ++ var)
      if dfs.any Option.isNone then .fileNotFound category
      else .table (dfs.map (fun o => o.getD [])).flatten
    | some _ =>
      match pythonKeywordCall getFileParamNames ccdCompIdGetFileKwargs with
      | .ok _ => .table []
      | .error k => .typeErrorKwarg k

/-- File path written by the update driver for one category and variant
suffix, relative to the data directory (update/pdb.py line 81); the stem
contains no dot, so Path.with_suffix appends the parquet extension. -/
def updatePdbCcdFilePath (basepath catName variantSuffix : String) : String :=
  basepath ++ "-" ++ catName ++ "-" ++ variantSuffix ++ ".parquet"

/-- The two variant suffixes the update driver iterates, in order
(update/pdb.py line 80): aa for the amino-acid partition and noaa for the
non-amino-acid partition. -/
def updatePdbVariantSuffixes : List String := ["aa", "noaa"]

/-- File path the public accessor asks the cached loader for, relative to
the data directory: category directory pdb, dataset name
ccd-{category}-{variant} and the parquet extension (pdb.py lines 268-272
and 283-288 with data.py line 127). -/
def accessorCcdFilePath (category variant : String) : String :=
  "pdb/ccd-" ++ category ++ "-" ++ variant ++ ".parquet"

/-- A value held by the cached loader: parsed JSON, an eager frame or a
lazy frame, each carrying the raw file content it was read from. -/
inductive PyValue where
  | jsonData (raw : String)
  | dataFrame (raw : String)
  | lazyFrame (raw : String)
  deriving DecidableEq

/-- Errors of the cached loader. -/
inductive GetFileError where
  | fileNotFound (category name : String)
  | inputError (parameter : String)
  deriving DecidableEq

/-- The process-wide cache, keyed by category then name; insertion at the
front with first-match lookup models dictionary overwrite semantics. -/
abbrev Cache := List ((String × String) × PyValue)

/-- Nested dictionary lookup cache.get(category, dict()).get(name). -/
def assocGet (key : String × String) : Cache → Option PyValue
  | [] => none
  | (k, v) :: rest => if key = k then some v else assocGet key rest

/-- The cached loader data.get_file, translating data.py lines 85-100 over
a store mapping (category, name, extension) to raw file contents: a cache
hit returns immediately; otherwise the path is resolved (ScicodaFileNotFoundError
when absent), the value is built from the extension - JSON parse, or an
eager or lazy parquet read; any other extension is a ScicodaInputError - and
cached unless the caller opts out. -/
def get_file (store : String → String → String → Option String) (c : Cache)
    (category name extension : String) (lazy cacheFlag : Bool) :
    Except GetFileError (PyValue × Cache) :=
  match assocGet (category, name) c with
  | some cached => .ok (cached, c)
  | none =>
    match store category name extension with
    | none => .error (.fileNotFound category name)
    | some raw =>
      let fileVal : Except GetFileError PyValue :=
        if extension = "json" then .ok (.jsonData raw)
        else if extension = "parquet" then
          .ok (if lazy then .lazyFrame raw else .dataFrame raw)
        else .error (.inputError "extension")
      match fileVal with
      | .error e => .error e
      | .ok v => .ok (v, if cacheFlag then ((category, name), v) :: c else c)

/-- Sample store holding one JSON file in the atom category, for witness
instantiations. -/
def sampleStore : String → String → String → Option String := fun category name _ =>
  if category = "atom" ∧ name = "autodock_atom_types" then some "raw" else none

/-- The cache after loading the sample file with caching on. -/
def sampleCache1 : Cache :=
  [(("atom", "autodock_atom_types"), PyValue.jsonData "raw")]

theorem mem_of_mem_dedupGo (idCols : List String) :
    ∀ (rows : List Row) (seen : List (List (Option String))) (r : Row),
      r ∈ dedupGo idCols rows seen → r ∈ rows := by
  intro rows
  induction rows with
  | nil => intro seen r h; simp [dedupGo] at h
  | cons a as ih =>
    intro seen r h
    simp only [dedupGo] at h
    split at h
    · exact List.mem_cons_of_mem a (ih seen r h)
    · rcases List.mem_cons.mp h with h1 | h2
      · exact h1 ▸ List.mem_cons_self a as
      · exact List.mem_cons_of_mem a (ih _ r h2)

theorem key_mem_dedupGo (idCols : List String) :
    ∀ (rows : List Row) (seen : List (List (Option String)))
      (k : List (Option String)),
      k ∈ (dedupGo idCols rows seen).map (rowKey idCols) ↔
        k ∈ rows.map (rowKey idCols) ∧ k ∉ seen := by
  intro rows
  induction rows with
  | nil => intro seen k; simp [dedupGo]
  | cons a as ih =>
    intro seen k
    simp only [dedupGo]
    split
    · rename_i hmem
      rw [ih]
      simp only [List.map_cons, List.mem_cons]
      constructor
      · rintro ⟨h1, h2⟩; exact ⟨Or.inr h1, h2⟩
      · rintro ⟨h1 | h1, h2⟩
        · exact absurd (h1 ▸ hmem) h2
        · exact ⟨h1, h2⟩
    · rename_i hmem
      simp only [List.map_cons, List.mem_cons, ih]
      constructor
      · rintro (h | ⟨h1, h2⟩)
        · exact ⟨Or.inl h, h ▸ hmem⟩
        · exact ⟨Or.inr h1, fun hk => h2 (Or.inr hk)⟩
      · rintro ⟨h1 | h1, h2⟩
        · exact Or.inl h1
        · by_cases hk : k = rowKey idCols a
          · exact Or.inl hk
          · exact Or.inr ⟨h1, by simp [List.mem_cons, hk, h2]⟩

theorem nodup_keys_dedupGo (idCols : List String) :
    ∀ (rows : List Row) (seen : List (List (Option String))),
      ((dedupGo idCols rows seen).map (rowKey idCols)).Nodup := by
  intro rows
  induction rows with
  | nil => intro seen; simp [dedupGo]
  | cons a as ih =>
    intro seen
    simp only [dedupGo]
    split
    · exact ih seen
    · simp only [List.map_cons, List.nodup_cons]
      refine ⟨fun hmem => ?_, ih _⟩
      have := (key_mem_dedupGo idCols as _ _).mp hmem
      exact this.2 (List.mem_cons_self _ _)

theorem key_mem_deduplicateByCols (idCols : List String) (rows : List Row)
    (k : List (Option String)) :
    k ∈ (deduplicateByCols idCols rows).map (rowKey idCols) ↔
      k ∈ rows.map (rowKey idCols) := by
  unfold deduplicateByCols
  rw [key_mem_dedupGo]
  simp

/-- C1: for every CCD category produced by the curator from both
dictionary variants, the merged table has pairwise-distinct identity keys
(exactly one row per distinct key), its identity-key set is the union of
the two variants' identity-key sets, and every merged row whose key occurs
in the main variant is a row of the main variant, so its non-key values
are the main variant's values. -/
theorem ccd_curator_merge_invariant (idCols : List String) (main prot : List Row) :
    ((curatorMergedTable idCols main prot).map (rowKey idCols)).Nodup
    ∧ (∀ k : List (Option String),
        k ∈ (curatorMergedTable idCols main prot).map (rowKey idCols) ↔
          k ∈ main.map (rowKey idCols) ∨ k ∈ prot.map (rowKey idCols))
    ∧ (∀ r ∈ curatorMergedTable idCols main prot,
        rowKey idCols r ∈ main.map (rowKey idCols) → r ∈ main) := by
  have hmainkeys := key_mem_deduplicateByCols idCols main
  have hprotkeys := key_mem_deduplicateByCols idCols prot
  refine ⟨?_, ?_, ?_⟩
  · unfold curatorMergedTable mergeRows
    rw [List.map_append, List.nodup_append]
    refine ⟨nodup_keys_dedupGo idCols main [], ?_, ?_⟩
    · exact ((nodup_keys_dedupGo idCols prot []).sublist
        ((List.filter_sublist _).map (rowKey idCols)))
    · intro k hk1 hk2
      rcases List.mem_map.mp hk2 with ⟨r, hr, hkr⟩
      rcases List.mem_filter.mp hr with ⟨_, hpred⟩
      rw [decide_eq_true_eq] at hpred
      exact hpred (hkr ▸ hk1)
  · intro k
    unfold curatorMergedTable mergeRows
    rw [List.map_append, List.mem_append]
    constructor
    · rintro (h | h)
      · exact Or.inl ((hmainkeys k).mp h)
      · rcases List.mem_map.mp h with ⟨r, hr, hkr⟩
        rcases List.mem_filter.mp hr with ⟨hrp, _⟩
        exact Or.inr ((hprotkeys k).mp (hkr ▸ List.mem_map_of_mem (rowKey idCols) hrp))
    · intro h
      by_cases hm : k ∈ (deduplicateByCols idCols main).map (rowKey idCols)
      · exact Or.inl hm
      · rcases h with h | h
        · exact absurd ((hmainkeys k).mpr h) hm
        · right
          rcases List.mem_map.mp ((hprotkeys k).mpr h) with ⟨r, hr, hkr⟩
          refine List.mem_map.mpr ⟨r, List.mem_filter.mpr ⟨hr, ?_⟩, hkr⟩
          rw [decide_eq_true_eq]
          exact fun hc => hm (hkr ▸ hc)
  · intro r hr hkey
    unfold curatorMergedTable mergeRows at hr
    rcases List.mem_append.mp hr with h | h
    · exact mem_of_mem_dedupGo idCols main [] r h
    · rcases List.mem_filter.mp h with ⟨_, hpred⟩
      rw [decide_eq_true_eq] at hpred
      exact absurd ((hmainkeys _).mpr hkey) hpred

theorem assocGet_cons_self (k : String × String) (v : PyValue) (rest : Cache) :
    assocGet k ((k, v) :: rest) = some v := by
  simp [assocGet]

/-- C3: for every atomic number z in 1..118, the group derived by the
schema normalizer is exactly the value the claim describes: null if and
only if z is in 58-71 or 90-103, 18 for helium, 3 for La and Ac, position
in period minus 14 for periods 6-7 past the f-block, and otherwise the
position in period with the +10 shift onto groups 13-18 for periods 2-3
positions of at least 3. -/
theorem atom_group_derivation_matches_claim :
    ∀ z : Nat, z ≤ 118 → 1 ≤ z → groupOf z = groupClaimC3 z := by decide

theorem atom_group_derivation_matches_claim_witness :
    ((57 : Nat) ≤ 118 ∧ (1 : Nat) ≤ 57)
    ∧ groupOf 57 = groupClaimC3 57 ∧ groupClaimC3 57 = some 3 :=
  ⟨⟨by decide, by decide⟩,
   atom_group_derivation_matches_claim 57 (by decide) (by decide), by decide⟩

/-- C2: every run of create.atom.periodic_table fails before returning a
table: line 5 pulls get_data from scicoda.data, which binds no such name,
and line 262 sorts by column z before the rename at line 275 introduces
it, so the sort would raise ColumnNotFoundError even once the name
resolves. -/
theorem create_atom_periodic_table_run_fails :
    pythonImportFrom scicodaDataModuleNames "get_data" = Except.error "get_data"
    ∧ polarsSortColumnCheck pubchemCsvColumns "z" = Except.error "z" :=
  ⟨rfl, rfl⟩

/-- C4: the curator output keeps estimated-standard-deviation columns:
line 94 of create/pdb.py appends cat.df, discarding the cat_df from which
lines 82-83 dropped them, so a chem_comp table with a column named
formula_weight_esd_digits flows through dedup, merge and partition
unchanged, and the non-amino-acid partition still carries the column. -/
theorem ccd_output_retains_esd_column :
    (ccdCategoryPartitions "chem_comp"
        [[[("id", "XYZ"), ("formula_weight", "1.0"), ("formula_weight_esd_digits", "2")]]]
        []).2
      = [[("id", "XYZ"), ("formula_weight", "1.0"), ("formula_weight_esd_digits", "2")]]
    ∧ strEndsWith "formula_weight_esd_digits" esdColsSuffix = true
    ∧ "formula_weight_esd_digits"
        ∈ rowCols [("id", "XYZ"), ("formula_weight", "1.0"), ("formula_weight_esd_digits", "2")] := by
  exact ⟨by decide, by decide, by decide⟩

/-- C5: the curator output keeps bond rows with atoms in source order:
line 94 of create/pdb.py appends cat.df, discarding the cat_df that
lines 89-92 normalized, so a chem_comp_bond row with atom_id_1 greater
than atom_id_2 survives to the non-amino-acid partition even though the
discarded normalization would have swapped the two ids. -/
theorem ccd_bond_row_retains_unordered_atoms :
    (ccdCategoryPartitions "chem_comp_bond"
        [[[("comp_id", "XYZ"), ("atom_id_1", "C2"), ("atom_id_2", "C1")]]] []).2
      = [[("comp_id", "XYZ"), ("atom_id_1", "C2"), ("atom_id_2", "C1")]]
    ∧ strLe "C2" "C1" = false
    ∧ normalizeBondRow [("comp_id", "XYZ"), ("atom_id_1", "C2"), ("atom_id_2", "C1")]
      = [("comp_id", "XYZ"), ("atom_id_1", "C1"), ("atom_id_2", "C2")] := by
  exact ⟨by decide, by decide, by decide⟩

/-- C6: with both variant files present and component ATP in the non-aa
chem_comp table only, the accessor call with comp_id never scans a file:
its first get_file call passes the keyword filterby, which get_file does
not accept, so Python raises TypeError instead of returning the one-row
table. -/
theorem ccd_accessor_comp_id_raises_type_error :
    pythonKeywordCall getFileParamNames ccdCompIdGetFileKwargs = Except.error "filterby"
    ∧ pdbCcdAccessor
        (fun n => if n = "ccd-chem_comp-aa" then some [[("id", "ALA")]]
          else if n = "ccd-chem_comp-non_aa" then some [[("id", "ATP")]] else none)
        (some ["ATP"]) "chem_comp" "any" = PdbCcdResult.typeErrorKwarg "filterby" := by
  exact ⟨rfl, by decide⟩

/-- C7: with both variant files present, calling the accessor with a valid
category, variant any and no comp_id returns the vertical concatenation of
the aa and non_aa tables instead of raising an InputError mentioning
comp_id and variant. -/
theorem ccd_accessor_any_without_comp_id_returns_table :
    pdbCcdAccessor
        (fun n => if n = "ccd-chem_comp-aa" then some [[("id", "ALA")]]
          else if n = "ccd-chem_comp-non_aa" then some [[("id", "ATP")]] else none)
        none "chem_comp" "any"
      = PdbCcdResult.table [[("id", "ALA")], [("id", "ATP")]] := by decide

/-- C8: the update driver and the public accessor agree on the amino-acid
file name but not on the non-amino-acid one: the driver writes suffix noaa
while the accessor reads suffix non_aa, so neither of the two files the
driver persists for a category sits at the path the accessor reads for the
non_aa variant. -/
theorem update_ccd_non_aa_filename_mismatch :
    updatePdbCcdFilePath "pdb/ccd" "chem_comp" "aa" = accessorCcdFilePath "chem_comp" "aa"
    ∧ updatePdbCcdFilePath "pdb/ccd" "chem_comp" "noaa" = "pdb/ccd-chem_comp-noaa.parquet"
    ∧ updatePdbCcdFilePath "pdb/ccd" "chem_comp" "aa" ≠ accessorCcdFilePath "chem_comp" "non_aa"
    ∧ updatePdbCcdFilePath "pdb/ccd" "chem_comp" "noaa" ≠ accessorCcdFilePath "chem_comp" "non_aa"
    ∧ updatePdbVariantSuffixes = ["aa", "noaa"] := by
  exact ⟨by decide, by decide, by decide, by decide, by decide⟩

/-- C9: loading a (category, name) pair twice with caching on returns the
same value both times, the second time straight from the cache, and a load
with caching off leaves the cache mapping unchanged. -/
theorem get_file_cache_idempotent
    (store : String → String → String → Option String) (c : Cache)
    (category name extension : String) (lazy : Bool)
    (v : PyValue) (c' : Cache) (v2 : PyValue) (c2 : Cache)
    (h : get_file store c category name extension lazy true = .ok (v, c'))
    (h2 : get_file store c category name extension lazy false = .ok (v2, c2)) :
    get_file store c' category name extension lazy true = .ok (v, c')
    ∧ assocGet (category, name) c' = some v
    ∧ c2 = c := by
  cases hc : assocGet (category, name) c with
  | some cached =>
    simp only [get_file, hc, Except.ok.injEq, Prod.mk.injEq] at h h2
    obtain ⟨hv, hc'⟩ := h
    obtain ⟨_, hc2⟩ := h2
    subst hv
    subst hc'
    exact ⟨by simp only [get_file, hc], hc, hc2.symm⟩
  | none =>
    cases hs : store category name extension with
    | none => simp only [get_file, hc, hs, reduceCtorEq] at h
    | some raw =>
      by_cases hj : extension = "json"
      · subst hj
        simp only [get_file, hc, hs, reduceIte, Except.ok.injEq, Prod.mk.injEq,
          Bool.false_eq_true] at h h2
        obtain ⟨hv, hc'⟩ := h
        obtain ⟨_, hc2⟩ := h2
        subst hv
        subst hc'
        exact ⟨by simp only [get_file, assocGet_cons_self], assocGet_cons_self _ _ _, hc2.symm⟩
      · by_cases hp : extension = "parquet"
        · subst hp
          simp only [get_file, hc, hs, String.reduceEq, reduceIte, Except.ok.injEq,
            Prod.mk.injEq, Bool.false_eq_true] at h h2
          obtain ⟨hv, hc'⟩ := h
          obtain ⟨_, hc2⟩ := h2
          subst hv
          subst hc'
          exact ⟨by simp only [get_file, assocGet_cons_self], assocGet_cons_self _ _ _, hc2.symm⟩
        · simp only [get_file, hc, hs, if_neg hj, if_neg hp, reduceCtorEq] at h

theorem get_file_cache_idempotent_witness :
    (get_file sampleStore [] "atom" "autodock_atom_types" "json" false true
        = Except.ok (PyValue.jsonData "raw", sampleCache1)
      ∧ get_file sampleStore [] "atom" "autodock_atom_types" "json" false false
        = Except.ok (PyValue.jsonData "raw", []))
    ∧ (get_file sampleStore sampleCache1 "atom" "autodock_atom_types" "json" false true
        = Except.ok (PyValue.jsonData "raw", sampleCache1)
      ∧ assocGet ("atom", "autodock_atom_types") sampleCache1 = some (PyValue.jsonData "raw")
      ∧ ([] : Cache) = []) :=
  ⟨⟨rfl, rfl⟩,
   get_file_cache_idempotent sampleStore [] "atom" "autodock_atom_types" "json" false
     (PyValue.jsonData "raw") sampleCache1 (PyValue.jsonData "raw") [] rfl rfl⟩

/-- C10: once a value is cached for a (category, name) pair, every later
get_file call with that pair returns the cached value and the unchanged
cache, whatever extension, lazy or cache arguments the later call
passes. -/
theorem get_file_cache_hit_ignores_args
    (store : String → String → String → Option String) (c : Cache)
    (category name : String) (v : PyValue)
    (h : assocGet (category, name) c = some v)
    (extension : String) (lazy cacheFlag : Bool) :
    get_file store c category name extension lazy cacheFlag = .ok (v, c) := by
  unfold get_file
  rw [h]

theorem get_file_cache_hit_ignores_args_witness :
    assocGet ("atom", "autodock_atom_types") sampleCache1 = some (PyValue.jsonData "raw")
    ∧ get_file sampleStore sampleCache1 "atom" "autodock_atom_types" "parquet" true false
        = Except.ok (PyValue.jsonData "raw", sampleCache1) :=
  ⟨rfl,
   get_file_cache_hit_ignores_args sampleStore sampleCache1 "atom" "autodock_atom_types"
     (PyValue.jsonData "raw") rfl "parquet" true false⟩
